import Mathlib

/-!
Verification of the magnet-whatslinkinfo resolution pipeline.

The definitions below are a shallow embedding of src/index.ts.  JavaScript
strings are modelled as Lean strings, usually manipulated via their
underlying character lists.  JavaScript numbers are modelled as exact
integers or rationals; Math.log-based exponent computation is modelled by
the exact floor of the base-1024 logarithm, and percent decoding is
modelled byte-wise (faithful on ASCII input, which is all the claims use).
Fallible JavaScript code (try/catch around throwing primitives such as
decodeURIComponent) is modelled with Option.
-/

set_option autoImplicit false

namespace Magnet

/-! ### Character and string primitives mirroring the JavaScript ones -/

/-- Model of the JavaScript startsWith check on character lists. -/
def startsWithL : List Char → List Char → Bool
  | [], _ => true
  | _ :: _, [] => false
  | p :: ps, c :: cs => p == c && startsWithL ps cs

/-- Model of JavaScript String.prototype.split with a single-character
separator: returns the (possibly empty) segments between occurrences of
the separator, keeping empty segments, as split does. -/
def splitOnChar (c : Char) : List Char → List (List Char)
  | [] => [[]]
  | x :: xs =>
    let r := splitOnChar c xs
    if x = c then [] :: r
    else
      match r with
      | [] => [[x]]
      | y :: ys => (x :: y) :: ys

/-- Split at the first occurrence of a character: returns the part before
it and, when the character occurs, the part after it.  Models taking the
key and the remainder of a key=value pair the way URLSearchParams does. -/
def splitFirstOn (c : Char) : List Char → List Char × Option (List Char)
  | [] => ([], none)
  | x :: xs =>
    if x = c then ([], some xs)
    else
      let (k, v) := splitFirstOn c xs
      (x :: k, v)

/-- Model of JavaScript String.prototype.includes for a fixed pattern. -/
def containsSub (pat : List Char) : List Char → Bool
  | [] => pat.isEmpty
  | x :: xs => startsWithL pat (x :: xs) || containsSub pat xs

/-- Model of JavaScript String.prototype.replace with a string pattern:
replaces only the first occurrence, or returns the input unchanged when
the pattern does not occur. -/
def replaceFirst (pat repl : List Char) : List Char → List Char
  | [] => if startsWithL pat [] then repl else []
  | x :: xs =>
    if startsWithL pat (x :: xs) then repl ++ (x :: xs).drop pat.length
    else x :: replaceFirst pat repl xs

/-- ASCII model of JavaScript String.prototype.toLowerCase. -/
def toLowerL (l : List Char) : List Char := l.map Char.toLower

/-- Hexadecimal digit value, used by percent decoding. -/
def hexDigit? (c : Char) : Option Nat :=
  if '0' ≤ c ∧ c ≤ '9' then some (c.toNat - '0'.toNat)
  else if 'a' ≤ c ∧ c ≤ 'f' then some (c.toNat - 'a'.toNat + 10)
  else if 'A' ≤ c ∧ c ≤ 'F' then some (c.toNat - 'A'.toNat + 10)
  else none

/-- Byte-wise model of decodeURIComponent: decodes every %XX escape and
fails (JavaScript throws URIError) on a malformed escape.  Faithful to
the source on ASCII escapes; multi-byte UTF-8 escapes are idealised as
single code points. -/
def pctDecodeStrict : List Char → Option (List Char)
  | [] => some []
  | c :: rest =>
    if c = '%' then
      match rest with
      | a :: b :: rest2 =>
        match hexDigit? a, hexDigit? b with
        | some x, some y => (pctDecodeStrict rest2).map (Char.ofNat (16 * x + y) :: ·)
        | _, _ => none
      | _ => none
    else (pctDecodeStrict rest).map (c :: ·)

/-- Byte-wise model of the lenient application/x-www-form-urlencoded
percent decoding used by URLSearchParams: malformed escapes are kept
literally instead of raising. -/
def pctDecodeLenientGo : Nat → List Char → List Char
  | 0, l => l
  | _ + 1, [] => []
  | fuel + 1, c :: rest =>
    if c = '%' then
      match rest with
      | a :: b :: rest2 =>
        match hexDigit? a, hexDigit? b with
        | some x, some y => Char.ofNat (16 * x + y) :: pctDecodeLenientGo fuel rest2
        | _, _ => '%' :: pctDecodeLenientGo fuel rest
      | _ => '%' :: pctDecodeLenientGo fuel rest
    else c :: pctDecodeLenientGo fuel rest

/-- Entry point of the lenient decoder; the fuel argument of the worker
only bounds the recursion depth and the list length always suffices. -/
def pctDecodeLenient (l : List Char) : List Char := pctDecodeLenientGo l.length l

/-- URLSearchParams value decoding: plus signs become spaces, then the
lenient percent decoding runs. -/
def formDecode (l : List Char) : List Char :=
  pctDecodeLenient (l.map fun c => if c = '+' then ' ' else c)

/-- Numeric value of a list of decimal digit characters. -/
def decDigitsVal : List Char → Nat
  | [] => 0
  | c :: rest => decDigitsVal rest + (c.toNat - '0'.toNat) * 10 ^ rest.length

/-- Longest leading run of decimal digits. -/
def takeDigits (l : List Char) : List Char := l.takeWhile Char.isDigit

/-- Value of the longest hexadecimal digit run at the head of the list. -/
def takeHexVal : List Char → Nat → Nat
  | c :: rest, acc =>
    match hexDigit? c with
    | some d => takeHexVal rest (acc * 16 + d)
    | none => acc
  | [], acc => acc

/-- Whether a hexadecimal digit leads the list. -/
def headIsHex : List Char → Bool
  | c :: _ => (hexDigit? c).isSome
  | [] => false

/-- Magnitude part of JavaScript parseInt: an optional 0x/0X prefix
switches to hexadecimal, otherwise the longest decimal digit run is
taken; no digit at all yields NaN (none). -/
def parseIntMag (l : List Char) : Option Nat :=
  match l with
  | c0 :: x :: rest =>
    if c0 = '0' ∧ (x = 'x' ∨ x = 'X') then
      if headIsHex rest then some (takeHexVal rest 0) else none
    else
      let d := takeDigits l
      if d.isEmpty then none else some (decDigitsVal d)
  | _ =>
    let d := takeDigits l
    if d.isEmpty then none else some (decDigitsVal d)

/-- Model of JavaScript parseInt on a string (radix argument absent):
skips leading whitespace, honours a sign, then parses the magnitude;
none models NaN. -/
def jsParseInt (l : List Char) : Option Int :=
  match l.dropWhile Char.isWhitespace with
  | [] => none
  | c :: rest =>
    if c = '-' then (parseIntMag rest).map fun n => -(n : Int)
    else if c = '+' then (parseIntMag rest).map fun n => (n : Int)
    else (parseIntMag (c :: rest)).map fun n => (n : Int)

/-! ### formatBytes (src/index.ts lines 113-119) -/

/-- Fuel-driven floor of the base-1024 logarithm; the fuel argument only
bounds the recursion depth.  This is the exact value of the JavaScript
expression Math.floor(Math.log(bytes) / Math.log(1024)) for positive
input, modelling the floating-point logarithms as exact reals. -/
def floorLog1024Go : Nat → Nat → Nat
  | 0, _ => 0
  | fuel + 1, n => if n < 1024 then 0 else floorLog1024Go fuel (n / 1024) + 1

/-- Floor of the base-1024 logarithm of a positive natural number. -/
def floorLog1024 (n : Nat) : Nat := floorLog1024Go n n

/-- The unit table of formatBytes; indices five and up fall off the end,
which JavaScript renders as the literal text undefined. -/
def byteUnits : List String := ["B", "KB", "MB", "GB", "TB"]

/-- Exact value of (bytes / p).toFixed(2) expressed in hundredths:
the quotient is scaled by 100 and rounded half away from zero (here the
inputs are nonnegative, so half up). -/
def fixedCents (bytes p : Nat) : Nat := (200 * bytes + p) / (2 * p)

/-- Renders a hundredths count the way JavaScript prints the number
parseFloat(x.toFixed(2)): trailing zeros of the two-decimal form are
dropped, and a whole number prints without a decimal point. -/
def centsToString (c : Nat) : String :=
  let ip := c / 100
  let fr := c % 100
  if fr = 0 then toString ip
  else if fr % 10 = 0 then toString ip ++ "." ++ toString (fr / 10)
  else if fr < 10 then toString ip ++ ".0" ++ toString fr
  else toString ip ++ "." ++ toString fr

/-- Shallow embedding of formatBytes (src/index.ts lines 113-119).
Zero returns the documented literal; negative input drives the
JavaScript computation through NaN at every step and prints as
"NaN undefined"; positive input divides by 1024 to the floor-log power,
rounds to two decimals, and appends the unit, the out-of-table case
printing the literal undefined exactly as JavaScript does. -/
def formatBytes (bytes : Int) : String :=
  if bytes = 0 then "0 B"
  else if bytes < 0 then "NaN undefined"
  else
    let n := bytes.toNat
    let i := floorLog1024 n
    centsToString (fixedCents n (1024 ^ i)) ++ " " ++ byteUnits.getD i "undefined"

theorem floorLog1024Go_ge (k : Nat) : ∀ (fuel n : Nat),
    1024 ^ k ≤ n → k ≤ fuel → k ≤ floorLog1024Go fuel n := by
  induction k with
  | zero => intro fuel n _ _; exact Nat.zero_le _
  | succ k ih =>
    intro fuel n hpow hfuel
    match fuel with
    | 0 => exact absurd hfuel (by omega)
    | f + 1 =>
      have h1024 : 1024 ≤ n := by
        calc 1024 = 1024 ^ 1 := by norm_num
        _ ≤ 1024 ^ (k + 1) := Nat.pow_le_pow_right (by norm_num) (by omega)
        _ ≤ n := hpow
      have hdiv : 1024 ^ k ≤ n / 1024 := by
        rw [Nat.le_div_iff_mul_le (by norm_num)]
        calc 1024 ^ k * 1024 = 1024 ^ (k + 1) := by ring
        _ ≤ n := hpow
      have : k ≤ floorLog1024Go f (n / 1024) := ih f (n / 1024) hdiv (by omega)
      simp only [floorLog1024Go, if_neg (by omega : ¬ n < 1024)]
      omega

theorem floorLog1024_ge (k n : Nat) (h : 1024 ^ k ≤ n) : k ≤ floorLog1024 n := by
  apply floorLog1024Go_ge k n n h
  calc k ≤ 2 ^ k := Nat.le_of_lt (Nat.lt_two_pow k)
    _ ≤ 1024 ^ k := Nat.pow_le_pow_left (by norm_num) k
    _ ≤ n := h

/-- C8: formatBytes renders the three documented sample values exactly:
zero bytes as the zero literal, 1024 as one kilobyte with the trailing
zeros dropped, and 1536 as one and a half kilobytes. -/
theorem formatBytes_samples :
    formatBytes 0 = "0 B" ∧ formatBytes 1024 = "1 KB" ∧ formatBytes 1536 = "1.5 KB" := by
  decide

/-- C10: for every byte count of at least 1024 to the fifth power the
unit index runs past the end of the unit table, so formatBytes renders
the unit as the literal text undefined. -/
theorem formatBytes_overflow_undefined (b : Int) (h : (1024 : Int) ^ 5 ≤ b) :
    ∃ s : String, formatBytes b = s ++ " undefined" := by
  have hlit : (1125899906842624 : Int) ≤ b := by
    calc (1125899906842624 : Int) = 1024 ^ 5 := by norm_num
      _ ≤ b := h
  have hb0 : ¬ b = 0 := by omega
  have hbneg : ¬ b < 0 := by omega
  have hn : 1024 ^ 5 ≤ b.toNat := by
    have : (1125899906842624 : Nat) ≤ b.toNat := by omega
    calc (1024 : Nat) ^ 5 = 1125899906842624 := by norm_num
      _ ≤ b.toNat := this
  have hi : 5 ≤ floorLog1024 b.toNat := floorLog1024_ge 5 _ hn
  have hunit : byteUnits.getD (floorLog1024 b.toNat) "undefined" = "undefined" := by
    apply List.getD_eq_default
    simpa [byteUnits] using hi
  refine ⟨centsToString (fixedCents b.toNat (1024 ^ floorLog1024 b.toNat)), ?_⟩
  simp only [formatBytes, if_neg hb0, if_neg hbneg, hunit]
  rw [String.append_assoc]
  congr 1

/-- Witness for C10: the bound holds at exactly 1024 to the fifth power,
and the theorem applies there. -/
theorem formatBytes_overflow_undefined_witness :
    ∃ s : String, formatBytes (1024 ^ 5) = s ++ " undefined" :=
  formatBytes_overflow_undefined (1024 ^ 5) (le_refl _)

/-! ### The Local Decoder (src/index.ts lines 19-110) -/

/-- A JavaScript number that may be NaN, as produced by parseInt. -/
inductive JsNum where
  | nan : JsNum
  | int : Int → JsNum
deriving DecidableEq, Repr

/-- The record both local decoding strategies build.  The hash is an
Option because the structured strategy stores the possibly-undefined
result of reading the xt parameter; size none models the null that both
strategies use for an absent length. -/
structure LocalMeta where
  hash : Option String
  name : String
  trackers : List String
  size : Option JsNum
deriving DecidableEq, Repr

/-- JavaScript truthiness of a possibly-undefined string: undefined and
the empty string are falsy. -/
def jsTruthyOptStr : Option String → Bool
  | some s => !s.isEmpty
  | none => false

/-- The key=value pairs URLSearchParams extracts from a query string:
empty segments between ampersands are dropped, each remaining segment is
cut at its first equals sign (a segment without one gets an empty
value), and both halves go through form decoding. -/
def segToPair (seg : List Char) : Option (List Char × List Char) :=
  if seg.isEmpty then none
  else
    let kv := splitFirstOn '=' seg
    some (formDecode kv.1, formDecode (kv.2.getD []))

def searchParamsOf (query : List Char) : List (List Char × List Char) :=
  (splitOnChar '&' query).filterMap segToPair

/-- URLSearchParams.get: the value of the first pair with the key. -/
def spGet (ps : List (List Char × List Char)) (k : List Char) : Option (List Char) :=
  (ps.find? fun p => p.1 == k).map fun p => p.2

/-- URLSearchParams.getAll: the values of every pair with the key, in
order. -/
def spGetAll (ps : List (List Char × List Char)) (k : List Char) : List (List Char) :=
  (ps.filter fun p => p.1 == k).map fun p => p.2

/-- The query-string part of the URI, mirroring new URL(...).search fed
to URLSearchParams: the WHATWG parser ends the query at the first hash
mark, everything from the hash mark on being the fragment, so the query
is the part after the first question mark of the part before the first
hash mark (and empty when the hash mark comes first). -/
def queryCharsOf (l : List Char) : List Char :=
  ((splitFirstOn '?' (splitFirstOn '#' l).1).2).getD []

/-- Shallow embedding of parseLocalMagnet (src/index.ts lines 19-49),
the structured decoding strategy: read xt, dn, the tr list and xl from
the URL query parameters; the hash strips the first occurrence of the
urn:btih: marker, the name percent-decodes dn a second time (failure of
that decode makes the whole strategy return null via the catch), and xl
goes through parseInt when truthy.  The query ends at the first hash
mark, as the WHATWG URL parser truncates it there.  The embedding
covers the magnet scheme the pipeline feeds it; other inputs are out of
modelled scope and return none. -/
def parseLocalMagnet (magnetURI : String) : Option LocalMeta :=
  if startsWithL "magnet:".data magnetURI.data then
    let ps := searchParamsOf (queryCharsOf magnetURI.data)
    let xt := spGet ps "xt".data
    let dn := spGet ps "dn".data
    let tr := spGetAll ps "tr".data
    let xl := spGet ps "xl".data
    let name? : Option String :=
      match dn with
      | some v => if v.isEmpty then some "未知资源" else (pctDecodeStrict v).map String.mk
      | none => some "未知资源"
    match name? with
    | none => none
    | some nm =>
      some
        { hash := xt.map fun v => String.mk (replaceFirst "urn:btih:".data [] v)
          name := nm
          trackers := tr.map String.mk
          size :=
            match xl with
            | some v => if v.isEmpty then none else some (match jsParseInt v with
                | some n => JsNum.int n
                | none => JsNum.nan)
            | none => none }
  else none

/-- Mutable record threaded through the manual strategy loop. -/
structure MMeta where
  hash : List Char
  name : List Char
  trackers : List (List Char)
  size : Option Int
deriving DecidableEq, Repr

/-- The loop body of parseLocalMagnetManual over the ampersand-separated
segments: each segment is split on equals signs with limit two, pairs
without a truthy value are skipped, the value is strictly
percent-decoded (a decode failure aborts the whole strategy through the
catch), and the xt, dn, tr and xl keys update the record. -/
def manualFold : MMeta → List (List Char) → Option MMeta
  | m, [] => some m
  | m, seg :: rest =>
    let parts := splitOnChar '=' seg
    let value := (parts.get? 1).getD []
    if value.isEmpty then manualFold m rest
    else
      match pctDecodeStrict value with
      | none => none
      | some dv =>
        let key := parts.headD []
        let m' :=
          if key = "xt".data then
            if startsWithL "urn:btih:".data dv then { m with hash := dv.drop 9 } else m
          else if key = "dn".data then { m with name := dv }
          else if key = "tr".data then { m with trackers := m.trackers ++ [dv] }
          else if key = "xl".data then
            match jsParseInt dv with
            | some n => { m with size := some n }
            | none => m
          else m
        manualFold m' rest

/-- Shallow embedding of parseLocalMagnetManual (src/index.ts lines
52-110), the manual decoding strategy: reject inputs without the
magnet:? scheme, fold the loop body over the segments after the first
eight characters, and return the record only when a hash was
recovered. -/
def parseLocalMagnetManual (magnetURI : String) : Option LocalMeta :=
  if startsWithL "magnet:?".data magnetURI.data then
    match manualFold ⟨[], "未知资源".data, [], none⟩ (splitOnChar '&' (magnetURI.data.drop 8)) with
    | none => none
    | some m =>
      if m.hash.isEmpty then none
      else
        some
          { hash := some (String.mk m.hash)
            name := String.mk m.name
            trackers := m.trackers.map String.mk
            size := m.size.map JsNum.int }
  else none

/-- The fallback chain at src/index.ts lines 202-207 and 273-278: the
structured strategy runs first and the manual strategy is consulted only
when it returned null. -/
def localFallbackParse (magnetURI : String) : Option LocalMeta :=
  match parseLocalMagnet magnetURI with
  | some r => some r
  | none => parseLocalMagnetManual magnetURI

/-! ### Configuration and the remote response body -/

/-- The plugin configuration (src/index.ts lines 7-16). -/
structure Config where
  apiEndpoint : String
  timeout : Nat
  customUserAgent : String
  useForward : Bool
  showScreenshot : Bool
  debugMode : Bool
  sendSeparately : Bool
  useLocalParsing : Bool
deriving DecidableEq, Repr

/-- One entry of the screenshots array: either a bare string or an
object whose screenshot field may hold a string. -/
inductive ScreenshotEntry where
  | str : String → ScreenshotEntry
  | obj : Option String → ScreenshotEntry
deriving DecidableEq, Repr

/-- The untrusted remote response body; every field is optional because
the code checks presence before use.  Fields are given their natural
types: the typeof guard on name is constitutively satisfied. -/
structure ApiBody where
  error : Option String
  message : Option String
  name : Option String
  size : Option Int
  count : Option Int
  file_type : Option String
  screenshots : Option (List ScreenshotEntry)
deriving DecidableEq, Repr

/-- JavaScript truthiness of a possibly-undefined number: undefined and
zero are falsy. -/
def jsTruthyOptInt : Option Int → Bool
  | some n => n != 0
  | none => false

/-- The JavaScript expression apiResponse.error or-else
apiResponse.message: the first operand when truthy, otherwise the
second (defaulting the template to the empty string for an absent
field, which the guarding branch never lets through). -/
def errMsgOf (r : ApiBody) : String :=
  if jsTruthyOptStr r.error then r.error.getD "" else r.message.getD ""

/-- The quota-keyword test of src/index.ts lines 192-195: the lowercased
error text contains one of the four rate-limit substrings. -/
def hasQuotaKeyword (msg : String) : Bool :=
  let lm := toLowerL msg.data
  containsSub "quota".data lm || containsSub "limit".data lm ||
    containsSub "frequent".data lm || containsSub "rate".data lm

/-! ### The Reply Formatter (src/index.ts lines 315-383) -/

/-- One sendable message unit.  text and image are the units of the
send-separately path; messageBlock and figureBlock are the single
composite unit of the bundled path, the latter marked for
forwarded delivery. -/
inductive ReplyUnit where
  | text : String → ReplyUnit
  | image : String → ReplyUnit
  | messageBlock : String → List String → ReplyUnit
  | figureBlock : String → List String → ReplyUnit
deriving DecidableEq, Repr

/-- The icon table of formatApiResponse with its undefined-key default. -/
def fileTypeIcon (t : String) : String :=
  if t = "folder" then "📁"
  else if t = "video" then "🎬"
  else if t = "audio" then "🎵"
  else if t = "archive" then "📦"
  else if t = "image" then "🖼️"
  else if t = "document" then "📄"
  else if t = "text" then "📝"
  else if t = "font" then "🔠"
  else if t = "unknown" then "❓"
  else "❓"

/-- Whether the screenshots section is active: screenshots enabled in
the configuration and the body carries a non-empty screenshots array. -/
def hasScreenshots (config : Config) (r : ApiBody) : Bool :=
  config.showScreenshot &&
    (match r.screenshots with
     | some l => !l.isEmpty
     | none => false)

/-- How a JavaScript template renders a possibly-undefined number. -/
def optIntText : Option Int → String
  | some n => toString n
  | none => "undefined"

/-- How a JavaScript template renders a possibly-undefined string. -/
def optStrText : Option String → String
  | some s => s
  | none => "undefined"

/-- The text block of the remote-data reply (src/index.ts lines
321-336): header, optional icon line for a truthy file type, name,
formatted size, file count, and the screenshots-preview marker when
screenshots are active. -/
def successText (config : Config) (r : ApiBody) : String :=
  "✅ 解析成功\n--------------------------\n"
    ++ (match r.file_type with
        | some t => if t.isEmpty then "" else fileTypeIcon t ++ " 内容类型: " ++ t ++ "\n"
        | none => "")
    ++ "📝 资源名称: " ++ optStrText r.name ++ "\n"
    ++ "💾 总大小: " ++ (match r.size with
        | some n => formatBytes n
        | none => "NaN undefined") ++ "\n"
    ++ "🧩 文件数量: " ++ optIntText r.count ++ "\n"
    ++ (if hasScreenshots config r then "--------------------------\n🖼️ 截图预览:" else "")

/-- URL extraction from one screenshots entry (src/index.ts lines
343-349): an object with a string screenshot field starting with http,
or a bare string starting with http; anything else is skipped. -/
def extractScreenshotUrl : ScreenshotEntry → Option String
  | .obj (some s) => if startsWithL "http".data s.data then some s else none
  | .obj none => none
  | .str s => if startsWithL "http".data s.data then some s else none

/-- One step of the screenshot loop: keep the URL when it is extracted
and its fetch succeeds; a fetch failure only drops that image. -/
def fetchFilter (fetchOk : String → Bool) (e : ScreenshotEntry) : Option String :=
  match extractScreenshotUrl e with
  | some u => if fetchOk u then some u else none
  | none => none

/-- The successfully fetched screenshot images, in response order; the
outer fetch oracle stands for the per-image HTTP GET. -/
def imageElems (config : Config) (r : ApiBody) (fetchOk : String → Bool) : List String :=
  if hasScreenshots config r then (r.screenshots.getD []).filterMap (fetchFilter fetchOk)
  else []

/-- Shallow embedding of formatApiResponse (src/index.ts lines 315-383):
builds the text block and fetched images, then assembles the reply
units: separate units when sendSeparately is on, otherwise one
composite unit, marked for forwarded delivery when useForward is on and
the platform supports it. -/
def formatApiResponse (config : Config) (platform : String) (r : ApiBody)
    (fetchOk : String → Bool) : List ReplyUnit :=
  let textContent := successText config r
  let imgs := imageElems config r fetchOk
  if config.sendSeparately then
    ReplyUnit.text textContent :: imgs.map ReplyUnit.image
  else if config.useForward && (platform == "qq" || platform == "onebot") then
    [ReplyUnit.figureBlock textContent imgs]
  else
    [ReplyUnit.messageBlock textContent imgs]

/-! ### The rate limiter (src/index.ts lines 149-155) -/

/-- Minimum inter-request interval in milliseconds. -/
def minInterval : Int := 3000

/-- Ceiling division for the rounded-up wait seconds of the rejection
message; the divisor is positive at the only use site. -/
def ceilDivInt (a b : Int) : Int := -((-a) / b)

/-- Outcome of the throttle check: whether the trigger may proceed, the
whole-second wait told to the user on rejection (zero on the allowed
path, where no message is produced), and the value of
lastRequestTime after the check. -/
structure ThrottleStep where
  allowed : Bool
  retrySec : Int
  lastAfter : Int
deriving DecidableEq, Repr

/-- Shallow embedding of the throttle check: a trigger inside the
minimum interval is rejected with the remaining wait rounded up to
whole seconds and the timestamp untouched; otherwise the trigger
proceeds and the timestamp advances to now.  A rejected trigger returns
before the HTTP request is issued. -/
def throttleStep (lastRequestTime now : Int) : ThrottleStep :=
  if now - lastRequestTime < minInterval then
    { allowed := false
      retrySec := ceilDivInt (minInterval - (now - lastRequestTime)) 1000
      lastAfter := lastRequestTime }
  else
    { allowed := true, retrySec := 0, lastAfter := now }

/-! ### Response classification and fallback orchestration
(src/index.ts lines 184-311) -/

/-- The final effect of one pipeline run past the throttle:
remoteReply is the loop sending the formatter units, reducedReply is
the single degraded-service message built from locally decoded
metadata (its banner line distinguishes the quota branch from the
catch branch), and notice is a single quoted failure message. -/
inductive FinalOutcome where
  | remoteReply : List ReplyUnit → FinalOutcome
  | reducedReply : String → LocalMeta → FinalOutcome
  | notice : String → FinalOutcome
deriving DecidableEq, Repr

/-- Banner of the reduced reply on the quota branch. -/
def quotaBanner : String := "⚠️ API 配额限制，使用本地解析"

/-- Banner of the reduced reply on the catch branch. -/
def apiFailBanner : String := "⚠️ API 解析失败，使用本地解析"

/-- Notice sent when both local strategies fail. -/
def localBothFailMsg : String := "解析失败，本地解析也无法处理此链接。"

/-- Notice sent when the body lacks a truthy name or size. -/
def incompleteMsg : String := "解析失败：API 返回数据不完整"

/-- Notice of the catch branch when local parsing is disabled. -/
def networkFailMsg : String := "解析失败，可能是网络问题或 API 暂时不可用。"

/-- Generic failure notice naming the reported reason. -/
def parseFailMsg (reason : String) : String := "解析失败：" ++ reason

/-- Quota notice when local parsing is disabled. -/
def quotaNoFallbackMsg (reason : String) : String :=
  "解析失败：API 配额限制 - " ++ reason ++ "\n\n"
    ++ "可能原因：whatslink.info 对非公共网站有配额限制，建议：\n"
    ++ "1. 降低请求频率\n"
    ++ "2. 考虑联系 API 提供商申请更高配额"

/-- The shared local-parse fallback (src/index.ts lines 202-232 and
273-301): run the strategy chain; a result with a truthy hash becomes
the single reduced-form reply under the given banner, anything else the
both-strategies-failed notice. -/
def localFallbackOutcome (banner : String) (magnetURI : String) : FinalOutcome :=
  match localFallbackParse magnetURI with
  | some lr =>
    if jsTruthyOptStr lr.hash then FinalOutcome.reducedReply banner lr
    else FinalOutcome.notice localBothFailMsg
  | none => FinalOutcome.notice localBothFailMsg

/-- The catch block (src/index.ts lines 265-305), reached by any thrown
error, including the explicit throw for an absent response body: local
fallback when enabled, otherwise the generic network-failure notice. -/
def catchFallback (config : Config) (magnetURI : String) : FinalOutcome :=
  if config.useLocalParsing then localFallbackOutcome apiFailBanner magnetURI
  else FinalOutcome.notice networkFailMsg

/-- Shallow embedding of the response handling of the middleware
(src/index.ts lines 184-311).  A body of none models a falsy response,
whose explicit throw lands in the catch block.  A present body walks
the classifier in source order: truthy error or message field, split by
the quota-keyword test into the quota branch (local fallback when
enabled, quota notice otherwise) and the plain failure notice; then the
incomplete-data check on name and size; then the legacy frequent-name
check; and finally the success path, which sends the formatter
units. -/
def handleResponse (config : Config) (platform : String) (magnetURI : String)
    (body : Option ApiBody) (fetchOk : String → Bool) : FinalOutcome :=
  match body with
  | none => catchFallback config magnetURI
  | some r =>
    if jsTruthyOptStr r.error || jsTruthyOptStr r.message then
      let errorMsg := errMsgOf r
      if hasQuotaKeyword errorMsg then
        if config.useLocalParsing then localFallbackOutcome quotaBanner magnetURI
        else FinalOutcome.notice (quotaNoFallbackMsg errorMsg)
      else FinalOutcome.notice (parseFailMsg errorMsg)
    else if !jsTruthyOptStr r.name || !jsTruthyOptInt r.size then
      FinalOutcome.notice incompleteMsg
    else if jsTruthyOptStr r.name
        && containsSub "frequent".data (toLowerL (r.name.getD "").data) then
      FinalOutcome.notice (parseFailMsg (r.name.getD ""))
    else
      FinalOutcome.remoteReply (formatApiResponse config platform r fetchOk)

/-! ### Concrete fixtures used by counterexamples and witnesses -/

/-- The default-like configuration with local parsing enabled. -/
def cfgLocalOn : Config :=
  { apiEndpoint := "https://whatslink.info/api/v1/link"
    timeout := 10000
    customUserAgent := "Mozilla/5.0"
    useForward := false
    showScreenshot := true
    debugMode := false
    sendSeparately := false
    useLocalParsing := true }

/-- A minimal magnet URI carrying only a hash. -/
def hashOnlyMagnet : String := "magnet:?xt=urn:btih:AAAAAAAAAAAAAAAAAAAAAAAAAAAAAAAAAAAAAAAA"

/-- A magnet URI with name, size and tracker information. -/
def richMagnet : String :=
  "magnet:?xt=urn:btih:AAAAAAAAAAAAAAAAAAAAAAAAAAAAAAAAAAAAAAAA&dn=Test&xl=2048&tr=udp://tracker.example.com:80"

/-! ### C1: pipeline behaviour on an empty/absent response body -/

/-- C1 is refuted: with useLocalParsing enabled, an absent response body
does not stop at a failure notice; the throw lands in the catch block,
the Local Decoder runs and a reduced-form reply is produced. -/
theorem emptyBody_fallback_counterexample :
    handleResponse cfgLocalOn "qq" hashOnlyMagnet none (fun _ => false)
      = FinalOutcome.reducedReply apiFailBanner
          { hash := some "AAAAAAAAAAAAAAAAAAAAAAAAAAAAAAAAAAAAAAAA"
            name := "未知资源", trackers := [], size := none } := by
  decide

/-- C1 (amended): an empty/absent response body raises, and the outer
catch block decides the outcome: with useLocalParsing disabled a single
generic failure notice is emitted and the Local Decoder never runs;
with useLocalParsing enabled the Local Decoder runs, and the outcome is
a reduced-form reply exactly when it recovers a truthy hash, otherwise
the local-failure notice. -/
theorem emptyBody_routes_to_catch (config : Config) (platform magnetURI : String)
    (fetchOk : String → Bool) :
    handleResponse config platform magnetURI none fetchOk
      = if config.useLocalParsing then
          match localFallbackParse magnetURI with
          | some lr =>
            if jsTruthyOptStr lr.hash then FinalOutcome.reducedReply apiFailBanner lr
            else FinalOutcome.notice localBothFailMsg
          | none => FinalOutcome.notice localBothFailMsg
        else FinalOutcome.notice networkFailMsg := by
  simp only [handleResponse, catchFallback, localFallbackOutcome]

/-! ### C2 counterexample: the two decoding strategies can disagree -/

/-- C3: a body with a truthy error or message field containing a quota
keyword, under useLocalParsing, where the local chain recovers a truthy
hash, yields exactly the single reduced-form reply built from the
locally decoded metadata; in particular the outcome is not a
remote-formatter reply. -/
theorem quota_error_local_fallback (config : Config) (platform magnetURI : String)
    (fetchOk : String → Bool) (r : ApiBody) (lr : LocalMeta)
    (herr : (jsTruthyOptStr r.error || jsTruthyOptStr r.message) = true)
    (hq : hasQuotaKeyword (errMsgOf r) = true)
    (hlp : config.useLocalParsing = true)
    (hloc : localFallbackParse magnetURI = some lr)
    (hh : jsTruthyOptStr lr.hash = true) :
    handleResponse config platform magnetURI (some r) fetchOk
      = FinalOutcome.reducedReply quotaBanner lr := by
  simp [handleResponse, herr, localFallbackOutcome, hloc, hq, hlp, hh]

/-- The body of the C3 witness: a rate-limit error report. -/
def rateLimitBody : ApiBody :=
  { error := some "rate limit exceeded", message := none, name := none, size := none
    count := none, file_type := none, screenshots := none }

/-- The locally decoded metadata of the rich magnet fixture. -/
def richMeta : LocalMeta :=
  { hash := some "AAAAAAAAAAAAAAAAAAAAAAAAAAAAAAAAAAAAAAAA"
    name := "Test"
    trackers := ["udp://tracker.example.com:80"]
    size := some (JsNum.int 2048) }

/-- Witness for C3 at the rate-limit body and the rich magnet. -/
theorem quota_error_local_fallback_witness :
    handleResponse cfgLocalOn "qq" richMagnet (some rateLimitBody) (fun _ => false)
      = FinalOutcome.reducedReply quotaBanner richMeta :=
  quota_error_local_fallback cfgLocalOn "qq" richMagnet (fun _ => false) rateLimitBody
    richMeta (by decide) (by decide) (by decide) (by decide) (by decide)

/-! ### C4: missing name or size yields the incomplete-data notice -/

/-- C4: a body without error and message fields that lacks the size
field (or the name field) produces the data-incomplete failure notice,
for every configuration, in particular for both values of
useLocalParsing; no fallback or success reply occurs. -/
theorem missing_fields_incomplete_notice (config : Config) (platform magnetURI : String)
    (fetchOk : String → Bool) (r : ApiBody)
    (herr : r.error = none) (hmsg : r.message = none)
    (hmiss : r.size = none ∨ r.name = none) :
    handleResponse config platform magnetURI (some r) fetchOk
      = FinalOutcome.notice incompleteMsg := by
  rcases hmiss with h | h <;>
    simp [handleResponse, herr, hmsg, h, jsTruthyOptStr, jsTruthyOptInt]

/-- Body of the C4 witness: name present, size absent. -/
def noSizeBody : ApiBody :=
  { error := none, message := none, name := some "Resource", size := none
    count := some 1, file_type := none, screenshots := none }

/-- Witness for C4 at a body missing only the size field. -/
theorem missing_fields_incomplete_notice_witness :
    handleResponse cfgLocalOn "qq" richMagnet (some noSizeBody) (fun _ => false)
      = FinalOutcome.notice incompleteMsg :=
  missing_fields_incomplete_notice cfgLocalOn "qq" richMagnet (fun _ => false) noSizeBody
    rfl rfl (Or.inl rfl)

/-! ### C9: present-but-falsy name or size is treated as missing -/

/-- C9: a body without error and message fields whose size field is
present but zero, or whose name field is present but empty, produces
the same data-incomplete notice as a body missing the field, and no
success reply. -/
theorem falsy_fields_incomplete_notice (config : Config) (platform magnetURI : String)
    (fetchOk : String → Bool) (r : ApiBody)
    (herr : r.error = none) (hmsg : r.message = none)
    (hfalsy : r.size = some 0 ∨ r.name = some "") :
    handleResponse config platform magnetURI (some r) fetchOk
      = FinalOutcome.notice incompleteMsg
    ∧ handleResponse config platform magnetURI
        (some { r with name := r.name, size := none }) fetchOk
      = FinalOutcome.notice incompleteMsg := by
  constructor
  · rcases hfalsy with h | h <;>
      simp [handleResponse, herr, hmsg, h, jsTruthyOptStr, jsTruthyOptInt,
        show ("" : String).isEmpty = true from rfl]
  · simp [handleResponse, herr, hmsg, jsTruthyOptStr, jsTruthyOptInt]

/-- Body of the C9 witness: both fields present, size zero. -/
def zeroSizeBody : ApiBody :=
  { error := none, message := none, name := some "Resource", size := some 0
    count := some 1, file_type := none, screenshots := none }

/-- Witness for C9 at a body whose size field is present but zero. -/
theorem falsy_fields_incomplete_notice_witness :
    handleResponse cfgLocalOn "qq" richMagnet (some zeroSizeBody) (fun _ => false)
      = FinalOutcome.notice incompleteMsg
    ∧ handleResponse cfgLocalOn "qq" richMagnet
        (some { zeroSizeBody with name := zeroSizeBody.name, size := none }) (fun _ => false)
      = FinalOutcome.notice incompleteMsg :=
  falsy_fields_incomplete_notice cfgLocalOn "qq" richMagnet (fun _ => false) zeroSizeBody
    rfl rfl (Or.inl rfl)

/-! ### C5: the rate limiter contract -/

/-- C5: a trigger is allowed exactly when the interval has elapsed; a
rejected trigger is told the remaining wait rounded up to whole
seconds, which is positive, and leaves the stored timestamp unchanged;
an allowed trigger advances the stored timestamp to now. -/
theorem throttle_contract (lastRequestTime now : Int) :
    ((throttleStep lastRequestTime now).allowed = true
        ↔ minInterval ≤ now - lastRequestTime)
    ∧ ((throttleStep lastRequestTime now).allowed = false →
        (throttleStep lastRequestTime now).retrySec
            = ceilDivInt (minInterval - (now - lastRequestTime)) 1000
          ∧ 0 < (throttleStep lastRequestTime now).retrySec
          ∧ (throttleStep lastRequestTime now).lastAfter = lastRequestTime)
    ∧ ((throttleStep lastRequestTime now).allowed = true →
        (throttleStep lastRequestTime now).lastAfter = now) := by
  by_cases h : now - lastRequestTime < minInterval
  · have hs : throttleStep lastRequestTime now =
        { allowed := false
          retrySec := ceilDivInt (minInterval - (now - lastRequestTime)) 1000
          lastAfter := lastRequestTime } := by
      simp [throttleStep, h]
    rw [minInterval] at h
    rw [hs]
    refine ⟨by simp [minInterval]; omega, fun _ => ⟨rfl, ?_, rfl⟩, by simp⟩
    simp only [ceilDivInt, minInterval]
    omega
  · have hs : throttleStep lastRequestTime now =
        { allowed := true, retrySec := 0, lastAfter := now } := by
      simp [throttleStep, h]
    rw [minInterval] at h
    rw [hs]
    exact ⟨by simp [minInterval]; omega, by simp, fun _ => rfl⟩

/-! ### C6: send-separately yields one text unit plus one unit per image -/

/-- All screenshot URLs when every entry conforms; none when any entry
is skipped by the extraction rules. -/
def extractAll : List ScreenshotEntry → Option (List String)
  | [] => some []
  | e :: rest =>
    match extractScreenshotUrl e with
    | some u => (extractAll rest).map (u :: ·)
    | none => none

theorem filterMap_fetchFilter_of_extractAll (fetchOk : String → Bool) :
    ∀ (l : List ScreenshotEntry) (urls : List String),
      extractAll l = some urls → (∀ u ∈ urls, fetchOk u = true) →
      l.filterMap (fetchFilter fetchOk) = urls ∧ urls.length = l.length := by
  intro l
  induction l with
  | nil =>
    intro urls h _
    simp only [extractAll, Option.some.injEq] at h
    subst h
    simp
  | cons e rest ih =>
    intro urls h hf
    simp only [extractAll] at h
    cases hx : extractScreenshotUrl e with
    | none => rw [hx] at h; exact absurd h (by simp)
    | some u =>
      rw [hx] at h
      cases hrest : extractAll rest with
      | none => rw [hrest] at h; exact absurd h (by simp)
      | some urls' =>
        rw [hrest] at h
        simp only [Option.map_some', Option.some.injEq] at h
        subst h
        have hu : fetchOk u = true := hf u (by simp)
        have := ih urls' hrest (fun v hv => hf v (by simp [hv]))
        constructor
        · simp only [List.filterMap_cons, fetchFilter, hx, hu, if_pos, this.1]
        · simp [this.2]

/-- C6: with sendSeparately on, screenshots enabled and a non-empty
screenshot list whose entries all yield URLs that all fetch
successfully, the formatter returns the text block first and then each
image as its own unit in response order: one plus the screenshot count
in total. -/
theorem separate_send_units (config : Config) (platform : String) (r : ApiBody)
    (fetchOk : String → Bool) (l : List ScreenshotEntry) (urls : List String)
    (hsep : config.sendSeparately = true)
    (hshow : config.showScreenshot = true)
    (hscr : r.screenshots = some l)
    (hne : l ≠ [])
    (hext : extractAll l = some urls)
    (hfetch : ∀ u ∈ urls, fetchOk u = true) :
    formatApiResponse config platform r fetchOk
      = ReplyUnit.text (successText config r) :: urls.map ReplyUnit.image
    ∧ (formatApiResponse config platform r fetchOk).length = 1 + l.length := by
  have hall := filterMap_fetchFilter_of_extractAll fetchOk l urls hext hfetch
  have himg : imageElems config r fetchOk = urls := by
    simp only [imageElems, hasScreenshots, hshow, hscr, Bool.true_and]
    simp [List.isEmpty_eq_false.mpr hne, hall.1]
  constructor
  · simp only [formatApiResponse, hsep, if_pos, himg]
  · simp only [formatApiResponse, hsep, if_pos, himg, List.length_cons, List.length_map]
    omega

/-- Configuration of the C6 witness: separate sending enabled. -/
def cfgSeparate : Config := { cfgLocalOn with sendSeparately := true }

/-- Body of the C6/C7 witnesses: a successful response carrying three
screenshot entries. -/
def threeShotBody : ApiBody :=
  { error := none, message := none, name := some "Resource", size := some 1048576
    count := some 3, file_type := some "video"
    screenshots := some [ScreenshotEntry.str "http://img/1.jpg",
      ScreenshotEntry.obj (some "http://img/2.jpg"), ScreenshotEntry.str "http://img/3.jpg"] }

/-- Witness for C6: three screenshots, all fetched, give four units. -/
theorem separate_send_units_witness :
    formatApiResponse cfgSeparate "qq" threeShotBody (fun _ => true)
      = ReplyUnit.text (successText cfgSeparate threeShotBody)
          :: (["http://img/1.jpg", "http://img/2.jpg", "http://img/3.jpg"].map ReplyUnit.image)
    ∧ (formatApiResponse cfgSeparate "qq" threeShotBody (fun _ => true)).length
        = 1 + [ScreenshotEntry.str "http://img/1.jpg",
            ScreenshotEntry.obj (some "http://img/2.jpg"),
            ScreenshotEntry.str "http://img/3.jpg"].length :=
  separate_send_units cfgSeparate "qq" threeShotBody (fun _ => true)
    [ScreenshotEntry.str "http://img/1.jpg", ScreenshotEntry.obj (some "http://img/2.jpg"),
      ScreenshotEntry.str "http://img/3.jpg"]
    ["http://img/1.jpg", "http://img/2.jpg", "http://img/3.jpg"]
    rfl rfl rfl (by decide) (by decide) (by intro u _; rfl)

/-! ### C7: forward bundling yields a single figure unit -/

/-- C7: with useForward on, sendSeparately off and a supported
platform, the formatter returns exactly one unit marked for forwarded
delivery, containing the text block and all successfully fetched
images. -/
theorem forward_bundle_unit (config : Config) (platform : String) (r : ApiBody)
    (fetchOk : String → Bool)
    (hfw : config.useForward = true) (hsep : config.sendSeparately = false)
    (hplat : platform = "qq" ∨ platform = "onebot") :
    formatApiResponse config platform r fetchOk
      = [ReplyUnit.figureBlock (successText config r) (imageElems config r fetchOk)] := by
  rcases hplat with h | h <;> subst h <;>
    simp [formatApiResponse, hsep, hfw]

/-- Configuration of the C7 witness: forward bundling enabled. -/
def cfgForward : Config := { cfgLocalOn with useForward := true }

/-- Witness for C7 on the qq platform. -/
theorem forward_bundle_unit_witness :
    formatApiResponse cfgForward "qq" threeShotBody (fun _ => true)
      = [ReplyUnit.figureBlock (successText cfgForward threeShotBody)
          (imageElems cfgForward threeShotBody (fun _ => true))] :=
  forward_bundle_unit cfgForward "qq" threeShotBody (fun _ => true) rfl rfl (Or.inl rfl)

/-! ### C2 (amended): agreement of the two strategies on plain input

The counterexample above forces restrictions: parameter values must be
free of the characters the two decoders treat differently (plus,
percent, equals), the xt key must occur exactly once and carry the
urn:btih: marker, dn and xl at most once, and xl must be decimal
digits.  Under these conditions the two strategies agree whenever both
return a result.  The magnet URI is presented through its parameter
list, rendered exactly as key=value pairs joined by ampersands after
the magnet:? scheme. -/

end Magnet
